import Mathlib

/-!
# Process-relay microservice: creation, registration and request building

A shallow embedding of `ssf::services::process::Server` as declared in
`src/services/process/server.h`: the static functions `Create`,
`RegisterToServiceFactory` and `GetCreateRequest`, together with the pieces
of the C++ standard library they rely on (`std::map`, `std::stoul`,
`std::to_string`).

Conventions.
* `std::string` is a Lean `String`; scanning works on its character list.
* Machine integers are natural numbers; a narrowing conversion to `uint32_t`
  is an explicit `% 2 ^ 32`, and the width of `unsigned long` is a parameter
  `ulong_bits` (64 on LP64 platforms, 32 on LLP64 ones).
* A C++ exception is an `Except.error`; a function that returns normally is
  an `Except.ok`.
* A `std::shared_ptr` result is an `Option`: `none` is the null pointer.
-/

namespace ssf

/-! ## Standard library -/

/-- The exception types thrown by the numeric conversions of `<string>`. -/
inductive Exception where
  | invalid_argument
  | out_of_range
  deriving DecidableEq, Repr

/-- Whether a handler `catch (const std::exception&)` matches the exception:
both `std::invalid_argument` and `std::out_of_range` derive from
`std::logic_error`, hence from `std::exception`. -/
def Exception.is_std_exception : Exception → Bool
  | .invalid_argument => true
  | .out_of_range => true

/-- The classification `isspace` of the "C" locale: space, and the controls
`\t`, `\n`, `\v`, `\f`, `\r` (codes 9 to 13). -/
def isspace (c : Char) : Bool :=
  c.toNat == 32 || (9 ≤ c.toNat && c.toNat ≤ 13)

/-- The classification `isdigit`: the ten characters `0` to `9`. -/
def isdigit (c : Char) : Bool :=
  48 ≤ c.toNat && c.toNat ≤ 57

/-- Value of a decimal digit character. -/
def digit_value (c : Char) : Nat :=
  c.toNat - 48

/-- Accumulates a run of decimal digits, most significant first. -/
def accumulate (digits : List Char) : Nat :=
  digits.foldl (fun acc c => 10 * acc + digit_value c) 0

/-- The optional sign of the subject sequence of `strtoul`: returns whether
the sign is a minus, and the text after the sign. -/
def take_sign : List Char → Bool × List Char
  | [] => (false, [])
  | c :: rest =>
    if c = '-' then (true, rest)
    else if c = '+' then (false, rest)
    else (false, c :: rest)

/-- The function `std::stoul(str)` (base 10, no position requested), which
calls `strtoul`: leading white space is skipped, an optional sign is read,
then the longest run of decimal digits is converted and whatever follows is
left unread. With no digit at that place no conversion is performed and
`std::invalid_argument` is thrown. When the magnitude exceeds `ULONG_MAX`
(`2 ^ ulong_bits - 1`) `strtoul` reports `ERANGE` and `std::out_of_range` is
thrown. A minus sign negates the magnitude in the type `unsigned long`. -/
def stoul (ulong_bits : Nat) (str : String) : Except Exception Nat :=
  let (negative, body) := take_sign (str.data.dropWhile isspace)
  let digits := body.takeWhile isdigit
  if digits.isEmpty then
    .error .invalid_argument
  else
    let magnitude := accumulate digits
    if magnitude ≥ 2 ^ ulong_bits then
      .error .out_of_range
    else if negative then
      .ok ((2 ^ ulong_bits - magnitude) % 2 ^ ulong_bits)
    else
      .ok magnitude

/-- The function `std::to_string` on an unsigned value: its decimal
representation, without sign or leading zeros. -/
def to_string (n : Nat) : String :=
  String.mk (Nat.toDigits 10 n)

/-- The type `Parameters`, a `std::map<std::string, std::string>`, as the
list of its entries. -/
abbrev Parameters := List (String × String)

/-- The member `std::map::count`: 1 when the key has an entry, else 0. -/
def Parameters.count (m : Parameters) (key : String) : Nat :=
  if m.any (fun e => e.1 == key) then 1 else 0

/-- The member `std::map::find`, as the mapped value when there is one. -/
def Parameters.find (m : Parameters) (key : String) : Option String :=
  (List.find? (fun e => e.1 == key) m).map Prod.snd

/-- The member `std::map::operator[]`, read side: the mapped value of the
key; a key without an entry gets a value-initialised (empty) string. -/
def Parameters.index (m : Parameters) (key : String) : String :=
  (m.find key).getD ""

/-- The member `std::map::insert`: adds the entry unless the key already
has one. -/
def Parameters.insert (m : Parameters) (key value : String) : Parameters :=
  if m.any (fun e => e.1 == key) then m else m ++ [(key, value)]

/-- The assignment `m[key] = value`: replaces the mapped value of the key,
or adds the entry when the key has none. -/
def Parameters.assign : Parameters → String → String → Parameters
  | [], key, value => [(key, value)]
  | e :: rest, key, value =>
    if e.1 == key then (key, value) :: rest
    else e :: Parameters.assign rest key value

/-! ## Collaborators declared outside `server.h` -/

/-- Modelled from the spec: the static configuration of the process-relay
service, declared in `services/process/config.h`, is
`{enabled: bool, path: string, args: string}`. -/
structure Config where
  enabled : Bool
  path : String
  args : String
  deriving DecidableEq, Repr

/-- Modelled from the spec: the constructor of `Server` is defined in
`server.ipp`; a server is "bound to the requested virtual port" and owns its
"static configuration (process binary path, process arguments)", so a server
value records the arguments its constructor receives. The virtual port type
`Demux::local_port_type` is an "unsigned 32-bit integer". -/
structure Server (IoService Demux : Type) where
  io_service : IoService
  fiber_demux : Demux
  local_port_ : Nat
  binary_path_ : String
  binary_args_ : String

/-- The pointer type `ServerPtr`, a `std::shared_ptr<Server>`. -/
abbrev ServerPtr (IoService Demux : Type) := Option (Server IoService Demux)

/-- The creator function type held by the service factory: it receives the
I/O service, the demultiplexer and the request parameters. -/
abbrev ServiceCreator (IoService Demux : Type) :=
  IoService → Demux → Parameters → Except Exception (ServerPtr IoService Demux)

/-- Modelled from the spec: the service factory of
`core/factories/service_factory.h` is a table "mapping a numeric service-type
identifier to a creation function". -/
structure ServiceFactory (IoService Demux : Type) where
  service_creators_ : Nat → Option (ServiceCreator IoService Demux)

/-- Modelled from the spec: `registerCreator(serviceTypeId, creatorFn)`
"associates a service type with a factory function". -/
def ServiceFactory.RegisterServiceCreator {IoService Demux : Type}
    (factory : ServiceFactory IoService Demux) (index : Nat)
    (creator : ServiceCreator IoService Demux) : ServiceFactory IoService Demux :=
  ⟨fun id => if id = index then some creator else factory.service_creators_ id⟩

/-- Modelled from the spec: the lookup step of `dispatch(serviceTypeId, ..)`,
which "looks up the creator" and finds no handler for an unknown id. -/
def ServiceFactory.lookup {IoService Demux : Type}
    (factory : ServiceFactory IoService Demux) (index : Nat) :
    Option (ServiceCreator IoService Demux) :=
  factory.service_creators_ index

/-- Modelled from the spec: the request of
`services/admin/requests/create_service_request.h` is a service-type id with
string key/value parameters. -/
structure CreateServiceRequest where
  service_id : Nat
  parameters : Parameters
  deriving DecidableEq, Repr

/-- Modelled from the spec: `build(serviceTypeId) -> request` "starts an
empty parameter set". -/
def CreateServiceRequest.build (service_id : Nat) : CreateServiceRequest :=
  ⟨service_id, []⟩

/-- Modelled from the spec: `addParameter(key, value)` "appends". -/
def CreateServiceRequest.add_parameter (request : CreateServiceRequest)
    (key value : String) : CreateServiceRequest :=
  { request with parameters := request.parameters ++ [(key, value)] }

/-! ## `Server` -/

namespace Server

/-- The enumerator `factory_id`: the service id used in the service
factory. -/
def factory_id : Nat := 10

/-- The static function `Server::Create`. -/
def Create {IoService Demux : Type} (ulong_bits : Nat) (io_service : IoService)
    (fiber_demux : Demux) (parameters : Parameters) (binary_path : String)
    (binary_args : String) : Except Exception (ServerPtr IoService Demux) :=
  if parameters.count "local_port" == 0 || binary_path.data.isEmpty then
    .ok none
  else
    match stoul ulong_bits (parameters.index "local_port") with
    | .error e =>
      -- `catch (const std::exception&)`
      if e.is_std_exception then .ok none else .error e
    | .ok converted =>
      -- initialisation of `uint32_t local_port`
      let local_port := converted % 2 ^ 32
      .ok (some ⟨io_service, fiber_demux, local_port, binary_path, binary_args⟩)

/-- The static function `Server::RegisterToServiceFactory`; the factory is
updated in place in the source and returned here. The registration member of
the factory is the parameter `RegisterServiceCreator`. -/
def RegisterToServiceFactory {IoService Demux Factory : Type} (ulong_bits : Nat)
    (RegisterServiceCreator : Factory → Nat → ServiceCreator IoService Demux → Factory)
    (p_factory : Factory) (config : Config) : Factory :=
  if !config.enabled then
    p_factory
  else
    RegisterServiceCreator p_factory factory_id
      (fun io_service fiber_demux parameters =>
        Create ulong_bits io_service fiber_demux parameters config.path config.args)

/-- The static function `Server::GetCreateRequest`; `local_port` is a
`uint16_t`. -/
def GetCreateRequest (local_port : Nat) : CreateServiceRequest :=
  let create := CreateServiceRequest.build factory_id
  create.add_parameter "local_port" (to_string local_port)

end Server

/-! ## Vocabulary of the specification -/

/-- A non-empty string of ASCII decimal digits. -/
def is_digit_string (s : String) : Bool :=
  !s.data.isEmpty && s.data.all isdigit

/-- The number a string of decimal digits denotes in positional notation:
each digit weighs ten to the power of the number of digits to its right. -/
def decimal_value : List Char → Nat
  | [] => 0
  | c :: cs => (c.toNat - 48) * 10 ^ cs.length + decimal_value cs

/-- The white-space characters: space, horizontal tab, line feed, vertical
tab, form feed and carriage return. -/
def white_space : List Char :=
  [' ', Char.ofNat 9, Char.ofNat 10, Char.ofNat 11, Char.ofNat 12, Char.ofNat 13]

/-- The ten ASCII decimal digits. -/
def decimal_digits : List Char :=
  "0123456789".data

/-- The text without its leading white space. -/
def strip_white_space : List Char → List Char
  | [] => []
  | c :: cs => if c ∈ white_space then strip_white_space cs else c :: cs

/-- The longest run of decimal digits at the start of the text. -/
def digit_run : List Char → List Char
  | [] => []
  | c :: cs => if c ∈ decimal_digits then c :: digit_run cs else []

/-- The number a text starts with: after the leading white space and at most
one sign character, the longest run of decimal digits. Gives whether the
sign is a minus, and the digits (none when no digit comes at that place). -/
def leading_number (s : String) : Bool × List Char :=
  match strip_white_space s.data with
  | [] => (false, [])
  | c :: rest =>
    if c = '-' then (true, digit_run rest)
    else if c = '+' then (false, digit_run rest)
    else (false, digit_run (c :: rest))

/-- The virtual port a leading number stands for when `unsigned long` has
`ulong_bits` bits: the number itself, or after a minus sign its negation
modulo `2 ^ ulong_bits`, reduced modulo `2 ^ 32`. -/
def port_of_number (ulong_bits : Nat) (minus : Bool) (digits : List Char) : Nat :=
  (if minus then (2 ^ ulong_bits - decimal_value digits) % 2 ^ ulong_bits
   else decimal_value digits) % 2 ^ 32

end ssf


namespace ssf

open Server

/-! ## Auxiliary lemmas -/

theorem accumulate_foldl (cs : List Char) (a : Nat) :
    cs.foldl (fun acc c => 10 * acc + digit_value c) a
      = a * 10 ^ cs.length + decimal_value cs := by
  induction cs generalizing a with
  | nil => simp [decimal_value]
  | cons c cs ih =>
    rw [List.foldl_cons, ih, decimal_value, List.length_cons, digit_value]
    ring

theorem accumulate_eq_decimal_value (cs : List Char) :
    accumulate cs = decimal_value cs := by
  simp [accumulate, accumulate_foldl]

theorem isdigit_not_isspace {c : Char} (h : isdigit c = true) : isspace c = false := by
  simp only [isdigit, Bool.and_eq_true, decide_eq_true_eq] at h
  simp only [isspace, Bool.or_eq_false_iff, beq_eq_false_iff_ne, ne_eq, Bool.and_eq_false_imp,
    decide_eq_true_eq, decide_eq_false_iff_not]
  omega

theorem take_sign_of_isdigit {c : Char} (cs : List Char) (h : isdigit c = true) :
    take_sign (c :: cs) = (false, c :: cs) := by
  simp only [isdigit, Bool.and_eq_true, decide_eq_true_eq] at h
  have h1 : c ≠ '-' := by
    intro hc; subst hc; revert h; decide
  have h2 : c ≠ '+' := by
    intro hc; subst hc; revert h; decide
  simp [take_sign, h1, h2]

theorem takeWhile_of_all (p : Char → Bool) (cs : List Char) (h : cs.all p = true) :
    cs.takeWhile p = cs := by
  induction cs with
  | nil => rfl
  | cons c cs ih =>
    simp only [List.all_cons, Bool.and_eq_true] at h
    simp [List.takeWhile_cons, h.1, ih h.2]

/-- On a non-empty string of digits `stoul` reads the whole string. -/
theorem stoul_digit_string (w : Nat) (s : String) (h : is_digit_string s = true) :
    stoul w s = if decimal_value s.data ≥ 2 ^ w then .error .out_of_range
      else .ok (decimal_value s.data) := by
  obtain ⟨cs⟩ := s
  cases cs with
  | nil => simp [is_digit_string] at h
  | cons c cs =>
    simp only [is_digit_string, List.isEmpty_cons, Bool.not_false, Bool.true_and] at h
    have hc : isdigit c = true := by
      simp only [List.all_cons, Bool.and_eq_true] at h; exact h.1
    have hdrop : (c :: cs).dropWhile isspace = c :: cs := by
      simp [List.dropWhile_cons, isdigit_not_isspace hc]
    simp only [stoul, hdrop, take_sign_of_isdigit cs hc, takeWhile_of_all isdigit _ h,
      List.isEmpty_cons, accumulate_eq_decimal_value]
    simp

/-! ### The parameter map -/

theorem find_eq_none_iff (m : Parameters) (key : String) :
    m.find key = none ↔ ∀ e ∈ m, e.1 ≠ key := by
  simp only [Parameters.find, Option.map_eq_none', List.find?_eq_none, beq_iff_eq]

theorem count_eq_zero_iff (m : Parameters) (key : String) :
    m.count key = 0 ↔ m.find key = none := by
  rw [find_eq_none_iff]
  unfold Parameters.count
  constructor
  · intro h e he hk
    split at h
    · exact absurd h (by decide)
    · rename_i hany
      exact hany (List.any_eq_true.2 ⟨e, he, by simpa using hk⟩)
  · intro h
    split
    · rename_i hany
      obtain ⟨e, he, hk⟩ := List.any_eq_true.1 hany
      exact absurd (by simpa using hk) (h e he)
    · rfl

theorem index_of_find {m : Parameters} {key value : String}
    (h : m.find key = some value) : m.index key = value := by
  simp [Parameters.index, h]

theorem find_append_ne (m : Parameters) (k v key : String) (h : k ≠ key) :
    Parameters.find (m ++ [(k, v)]) key = m.find key := by
  induction m with
  | nil => simp [Parameters.find, List.find?_cons, h]
  | cons e m ih =>
    simp only [Parameters.find, List.cons_append, List.find?_cons] at ih ⊢
    split
    · rfl
    · exact ih

theorem find_insert_ne (m : Parameters) (k v key : String) (h : k ≠ key) :
    (m.insert k v).find key = m.find key := by
  unfold Parameters.insert
  split
  · rfl
  · exact find_append_ne m k v key h

theorem find_assign_ne (m : Parameters) (k v key : String) (h : k ≠ key) :
    (m.assign k v).find key = m.find key := by
  induction m with
  | nil => simp [Parameters.assign, Parameters.find, List.find?_cons, h]
  | cons e m ih =>
    unfold Parameters.assign
    by_cases hk : e.1 = k
    · have hne : e.1 ≠ key := fun he => h (hk ▸ he)
      simp [hk, Parameters.find, List.find?_cons, h, hk ▸ hne]
    · simp only [beq_iff_eq, hk, if_false]
      simp only [Parameters.find, List.find?_cons] at ih ⊢
      split
      · rfl
      · exact ih

/-- The result of `Create` as a function of the mapped value of
`"local_port"`, the binary path and the binary arguments. -/
theorem Create_eq_of_find {IoService Demux : Type} (w : Nat) (io : IoService) (d : Demux)
    (m : Parameters) (path args : String) :
    Create w io d m path args =
      match m.find "local_port" with
      | none => .ok none
      | some value =>
        if path = "" then .ok none
        else match stoul w value with
          | .error _ => .ok none
          | .ok n => .ok (some ⟨io, d, n % 2 ^ 32, path, args⟩) := by
  have hpath : path.data.isEmpty = true ↔ path = "" := by
    obtain ⟨l⟩ := path
    cases l <;> simp [String.ext_iff]
  cases hf : m.find "local_port" with
  | none =>
    have hc := (count_eq_zero_iff m "local_port").2 hf
    simp [Create, hc]
  | some value =>
    have hc : m.count "local_port" ≠ 0 := by
      rw [Ne, count_eq_zero_iff, hf]; simp
    have hi := index_of_find hf
    by_cases hp : path = ""
    · simp [Create, hp]
    · have hp2 : path.data.isEmpty = false := by
        rw [← Bool.not_eq_true, hpath]; exact hp
      have hb : (m.count "local_port" == 0) = false := by simpa using hc
      simp only [Create, hi, hp2, hp, if_false, hb, Bool.or_self, Bool.false_eq_true]
      cases stoul w value with
      | error e => cases e <;> rfl
      | ok n => rfl

/-! ### Decimal representation -/

theorem digitChar_spec (k : Nat) (h : k < 10) :
    isdigit (Nat.digitChar k) = true ∧ (Nat.digitChar k).toNat - 48 = k := by
  interval_cases k <;> exact ⟨by decide, by decide⟩

theorem decimal_value_append (l : List Char) (c : Char) :
    decimal_value (l ++ [c]) = 10 * decimal_value l + (c.toNat - 48) := by
  induction l with
  | nil => simp [decimal_value]
  | cons a l ih =>
    rw [List.cons_append, decimal_value, decimal_value, ih, List.length_append,
      List.length_singleton]
    ring

theorem toDigitsCore_append (fuel : Nat) :
    ∀ (n : Nat) (ds : List Char),
      Nat.toDigitsCore 10 fuel n ds = Nat.toDigitsCore 10 fuel n [] ++ ds := by
  induction fuel with
  | zero => intro n ds; simp [Nat.toDigitsCore]
  | succ fuel ih =>
    intro n ds
    simp only [Nat.toDigitsCore]
    split
    · simp
    · rw [ih (n / 10) (Nat.digitChar (n % 10) :: ds), ih (n / 10) [Nat.digitChar (n % 10)]]
      simp

theorem toDigitsCore_spec (fuel : Nat) :
    ∀ n : Nat, n < fuel →
      Nat.toDigitsCore 10 fuel n [] ≠ [] ∧
      (Nat.toDigitsCore 10 fuel n []).all isdigit = true ∧
      decimal_value (Nat.toDigitsCore 10 fuel n []) = n := by
  induction fuel with
  | zero => intro n h; omega
  | succ fuel ih =>
    intro n hn
    have hd := digitChar_spec (n % 10) (Nat.mod_lt n (by decide))
    simp only [Nat.toDigitsCore]
    split
    · rename_i h0
      have hlt : n < 10 := by omega
      have hmod : n % 10 = n := Nat.mod_eq_of_lt hlt
      rw [hmod] at hd ⊢
      simp [decimal_value, hd.1, hd.2]
    · rename_i h0
      have hlt : n / 10 < fuel := by omega
      obtain ⟨_, h2, h3⟩ := ih (n / 10) hlt
      rw [toDigitsCore_append]
      refine ⟨by simp, ?_, ?_⟩
      · simp only [List.all_append, h2, List.all_cons, hd.1, List.all_nil, Bool.and_self]
      · rw [decimal_value_append, h3, hd.2]
        omega

/-- The text `to_string n` is a non-empty string of digits that denotes `n`. -/
theorem to_string_spec (n : Nat) :
    is_digit_string (to_string n) = true ∧ decimal_value (to_string n).data = n := by
  obtain ⟨h1, h2, h3⟩ := toDigitsCore_spec (n + 1) n (Nat.lt_succ_self n)
  refine ⟨?_, h3⟩
  simp only [is_digit_string, to_string, Nat.toDigits, Bool.and_eq_true, Bool.not_eq_true',
    List.isEmpty_eq_false]
  exact ⟨h1, h2⟩

theorem isspace_iff_mem (c : Char) : isspace c = true ↔ c ∈ white_space := by
  constructor
  · intro h
    have key : ∀ n : Nat, (n = 32 ∨ (9 ≤ n ∧ n ≤ 13)) → Char.ofNat n ∈ white_space := by
      intro n hn
      rcases hn with rfl | ⟨h1, h2⟩
      · decide
      · interval_cases n <;> decide
    have hc := key c.toNat (by simpa [isspace] using h)
    rwa [Char.ofNat_toNat] at hc
  · have all : ∀ x ∈ white_space, isspace x = true := by decide
    exact all c

theorem isdigit_iff_mem (c : Char) : isdigit c = true ↔ c ∈ decimal_digits := by
  constructor
  · intro h
    have key : ∀ n : Nat, (48 ≤ n ∧ n ≤ 57) → Char.ofNat n ∈ decimal_digits := by
      intro n hn
      obtain ⟨h1, h2⟩ := hn
      interval_cases n <;> decide
    have hc := key c.toNat (by simpa [isdigit] using h)
    rwa [Char.ofNat_toNat] at hc
  · have all : ∀ x ∈ decimal_digits, isdigit x = true := by decide
    exact all c

theorem dropWhile_isspace (cs : List Char) :
    cs.dropWhile isspace = strip_white_space cs := by
  induction cs with
  | nil => rfl
  | cons c cs ih =>
    by_cases h : c ∈ white_space
    · have hs : isspace c = true := (isspace_iff_mem c).2 h
      simp [List.dropWhile_cons, strip_white_space, h, hs, ih]
    · have hs : isspace c = false := by
        rw [← Bool.not_eq_true, isspace_iff_mem]; exact h
      simp [List.dropWhile_cons, strip_white_space, h, hs]

theorem takeWhile_isdigit (cs : List Char) :
    cs.takeWhile isdigit = digit_run cs := by
  induction cs with
  | nil => rfl
  | cons c cs ih =>
    by_cases h : c ∈ decimal_digits
    · have hs : isdigit c = true := (isdigit_iff_mem c).2 h
      simp [List.takeWhile_cons, digit_run, h, hs, ih]
    · have hs : isdigit c = false := by
        rw [← Bool.not_eq_true, isdigit_iff_mem]; exact h
      simp [List.takeWhile_cons, digit_run, h, hs]

/-- The sign and the digits that `stoul` reads are those of the leading
number of the text. -/
theorem take_sign_leading_number (s : String) :
    ((take_sign (s.data.dropWhile isspace)).1,
      (take_sign (s.data.dropWhile isspace)).2.takeWhile isdigit) = leading_number s := by
  unfold leading_number
  rw [dropWhile_isspace]
  cases strip_white_space s.data with
  | nil => simp [take_sign]
  | cons c rest =>
    simp only [take_sign]
    by_cases h1 : c = '-'
    · simp [h1, takeWhile_isdigit]
    · by_cases h2 : c = '+'
      · simp [h2, takeWhile_isdigit]
      · simp [h1, h2, takeWhile_isdigit]

/-- The conversion `stoul` in terms of the leading number of the text. -/
theorem stoul_eq_leading_number (w : Nat) (s : String) :
    stoul w s =
      if (leading_number s).2 = [] then .error .invalid_argument
      else if 2 ^ w ≤ decimal_value (leading_number s).2 then .error .out_of_range
      else if (leading_number s).1 then
        .ok ((2 ^ w - decimal_value (leading_number s).2) % 2 ^ w)
      else .ok (decimal_value (leading_number s).2) := by
  rw [← take_sign_leading_number s]
  unfold stoul
  generalize take_sign (List.dropWhile isspace s.data) = sb
  obtain ⟨negative, body⟩ := sb
  simp only [accumulate_eq_decimal_value, List.isEmpty_iff, ge_iff_le]

theorem find_GetCreateRequest (p : Nat) :
    (GetCreateRequest p).parameters.find "local_port" = some (to_string p) := by
  simp [GetCreateRequest, CreateServiceRequest.build, CreateServiceRequest.add_parameter,
    Parameters.find, List.find?_cons]

/-- The result of `Create` when the `"local_port"` value is a non-empty string
of digits and the binary path is not empty. -/
theorem Create_of_digit_string {IoService Demux : Type} (w : Nat) (io : IoService) (d : Demux)
    (m : Parameters) (value path args : String)
    (hvalue : m.find "local_port" = some value)
    (hdigits : is_digit_string value = true)
    (hpath : path ≠ "") :
    Create w io d m path args =
      if decimal_value value.data < 2 ^ w then
        .ok (some ⟨io, d, decimal_value value.data % 2 ^ 32, path, args⟩)
      else .ok none := by
  rw [Create_eq_of_find, hvalue]
  simp only [hpath, if_false, stoul_digit_string w value hdigits]
  by_cases h : decimal_value value.data < 2 ^ w
  · have hnot : ¬ decimal_value value.data ≥ 2 ^ w := by omega
    simp only [hnot, h, if_true, if_false]
  · have hge : decimal_value value.data ≥ 2 ^ w := by omega
    simp only [hge, h, if_true, if_false]

/-! ## The claims -/

/-- C1: when the parameter map has no `"local_port"` key, or the binary path
is the empty string, `Server::Create` returns the null pointer, whatever the
other inputs are. -/
theorem C1_create_null_without_port_or_path {IoService Demux : Type} (ulong_bits : Nat)
    (io_service : IoService) (fiber_demux : Demux) (parameters : Parameters)
    (binary_path binary_args : String)
    (h : (∀ e ∈ parameters, e.1 ≠ "local_port") ∨ binary_path = "") :
    Create ulong_bits io_service fiber_demux parameters binary_path binary_args = .ok none := by
  rw [Create_eq_of_find]
  rcases h with h | h
  · rw [(find_eq_none_iff parameters "local_port").2 h]
  · cases parameters.find "local_port" with
    | none => rfl
    | some value => simp [h]

/-- Instance of C1 at a concrete input. -/
theorem C1_witness :
    ((∀ e ∈ ([("remote_port", "80")] : Parameters), e.1 ≠ "local_port") ∨ "/bin/sh" = "") ∧
    Create 64 () () [("remote_port", "80")] "/bin/sh" "-i" = .ok none :=
  ⟨Or.inl (by decide),
   C1_create_null_without_port_or_path 64 () () [("remote_port", "80")] "/bin/sh" "-i"
     (Or.inl (by decide))⟩

/-- C2, as stated, fails: the value `"12abc"` is not a string of decimal
digits, yet `Server::Create` converts its numeric prefix and returns a server
on port 12 instead of the null pointer. -/
theorem C2_counterexample :
    is_digit_string "12abc" = false ∧
    Create 64 () () [("local_port", "12abc")] "/bin/sh" "" =
      .ok (some ⟨(), (), 12, "/bin/sh", ""⟩) :=
  ⟨by decide, by rfl⟩

/-- C2, amended: for every parameter map with a `"local_port"` value, digit
string or not, and every binary path and arguments, `Server::Create` returns
the null pointer exactly when the binary path is empty, or the value has no
decimal digit right after its leading white space and at most one sign, or
the run of digits found there denotes a number above `ULONG_MAX`. In every
other case the text around the number is ignored and the result is a server
on the port of that number: the number, negated modulo `2 ^ ulong_bits` after
a minus sign, reduced modulo `2 ^ 32`. -/
theorem C2_create_by_leading_number {IoService Demux : Type} (ulong_bits : Nat)
    (io_service : IoService) (fiber_demux : Demux) (parameters : Parameters)
    (value binary_path binary_args : String)
    (hvalue : parameters.find "local_port" = some value) :
    Create ulong_bits io_service fiber_demux parameters binary_path binary_args =
      if binary_path = "" ∨ (leading_number value).2 = [] ∨
          2 ^ ulong_bits ≤ decimal_value (leading_number value).2 then
        .ok none
      else
        .ok (some ⟨io_service, fiber_demux,
          port_of_number ulong_bits (leading_number value).1 (leading_number value).2,
          binary_path, binary_args⟩) := by
  rw [Create_eq_of_find, hvalue]
  simp only [stoul_eq_leading_number, port_of_number]
  by_cases hp : binary_path = ""
  · simp [hp]
  · by_cases hd : (leading_number value).2 = []
    · simp [hp, hd]
    · by_cases hr : 2 ^ ulong_bits ≤ decimal_value (leading_number value).2
      · simp [hp, hd, hr]
      · cases hm : (leading_number value).1 <;> simp [hp, hd, hr]

/-- Instance of C2 at concrete inputs: text without a number and a number
above `ULONG_MAX` behind white space or a sign give the null pointer; a
number behind white space, behind a sign or before other text gives a
server. -/
theorem C2_witness :
    Parameters.find [("local_port", "abc")] "local_port" = some "abc" ∧
    Create 64 () () [("local_port", "abc")] "/bin/sh" "" = .ok none ∧
    Create 64 () () [("local_port", " 18446744073709551616")] "/bin/sh" "" = .ok none ∧
    Create 64 () () [("local_port", "-18446744073709551616")] "/bin/sh" "" = .ok none ∧
    Create 64 () () [("local_port", " 7")] "/bin/sh" "" =
      .ok (some ⟨(), (), 7, "/bin/sh", ""⟩) ∧
    Create 64 () () [("local_port", "+7")] "/bin/sh" "" =
      .ok (some ⟨(), (), 7, "/bin/sh", ""⟩) ∧
    Create 64 () () [("local_port", "-1")] "/bin/sh" "" =
      .ok (some ⟨(), (), 4294967295, "/bin/sh", ""⟩) :=
  ⟨by decide,
   (C2_create_by_leading_number 64 () () [("local_port", "abc")] "abc" "/bin/sh" ""
      (by decide)).trans (by rfl),
   (C2_create_by_leading_number 64 () () [("local_port", " 18446744073709551616")]
      " 18446744073709551616" "/bin/sh" "" (by decide)).trans (by rfl),
   (C2_create_by_leading_number 64 () () [("local_port", "-18446744073709551616")]
      "-18446744073709551616" "/bin/sh" "" (by decide)).trans (by rfl),
   (C2_create_by_leading_number 64 () () [("local_port", " 7")] " 7" "/bin/sh" ""
      (by decide)).trans (by rfl),
   (C2_create_by_leading_number 64 () () [("local_port", "+7")] "+7" "/bin/sh" ""
      (by decide)).trans (by rfl),
   (C2_create_by_leading_number 64 () () [("local_port", "-1")] "-1" "/bin/sh" ""
      (by decide)).trans (by rfl)⟩

/-- C3: when the `"local_port"` value is a non-empty string of decimal digits
denoting `n ≤ 4294967295` and the binary path is not empty, `Server::Create`
returns a server constructed with virtual port exactly `n`, the given binary
path and the given binary arguments (for every width of `unsigned long` of at
least 32 bits). -/
theorem C3_create_builds_server {IoService Demux : Type} (ulong_bits : Nat)
    (io_service : IoService) (fiber_demux : Demux) (parameters : Parameters)
    (value binary_path binary_args : String)
    (hbits : 32 ≤ ulong_bits)
    (hvalue : parameters.find "local_port" = some value)
    (hdigits : is_digit_string value = true)
    (hrange : decimal_value value.data ≤ 4294967295)
    (hpath : binary_path ≠ "") :
    Create ulong_bits io_service fiber_demux parameters binary_path binary_args =
      .ok (some ⟨io_service, fiber_demux, decimal_value value.data,
        binary_path, binary_args⟩) := by
  have hpow : 2 ^ 32 ≤ 2 ^ ulong_bits := Nat.pow_le_pow_right (by decide) hbits
  have hlt : decimal_value value.data < 2 ^ 32 := by
    have : (2 : Nat) ^ 32 = 4294967296 := by norm_num
    omega
  have hfits : decimal_value value.data < 2 ^ ulong_bits := by omega
  rw [Create_of_digit_string ulong_bits io_service fiber_demux parameters value binary_path
    binary_args hvalue hdigits hpath, if_pos hfits, Nat.mod_eq_of_lt hlt]

/-- Instance of C3 at a concrete input. -/
theorem C3_witness :
    32 ≤ 64 ∧
    Parameters.find [("local_port", "4000")] "local_port" = some "4000" ∧
    is_digit_string "4000" = true ∧
    decimal_value "4000".data ≤ 4294967295 ∧
    "/bin/echo" ≠ "" ∧
    Create 64 () () [("local_port", "4000")] "/bin/echo" "" =
      .ok (some ⟨(), (), decimal_value "4000".data, "/bin/echo", ""⟩) :=
  ⟨by decide, by decide, by decide, by decide, by decide,
   C3_create_builds_server 64 () () [("local_port", "4000")] "4000" "/bin/echo" ""
     (by decide) (by decide) (by decide) (by decide) (by decide)⟩

/-- C4: round trip between the request builder and the creator. For every
16-bit port `p` and every non-empty binary path, `Server::Create` applied to
the parameters of `GetCreateRequest(p)` returns a server whose virtual port
is `p`. -/
theorem C4_create_of_GetCreateRequest {IoService Demux : Type} (ulong_bits : Nat)
    (io_service : IoService) (fiber_demux : Demux) (local_port : Nat)
    (binary_path binary_args : String)
    (hbits : 32 ≤ ulong_bits)
    (hport : local_port < 65536)
    (hpath : binary_path ≠ "") :
    Create ulong_bits io_service fiber_demux (GetCreateRequest local_port).parameters
        binary_path binary_args =
      .ok (some ⟨io_service, fiber_demux, local_port, binary_path, binary_args⟩) := by
  obtain ⟨hdigits, hden⟩ := to_string_spec local_port
  have hpow : 2 ^ 32 ≤ 2 ^ ulong_bits := Nat.pow_le_pow_right (by decide) hbits
  have hlt : local_port < 2 ^ 32 := by
    have : (2 : Nat) ^ 32 = 4294967296 := by norm_num
    omega
  have hfits : local_port < 2 ^ ulong_bits := by omega
  rw [Create_of_digit_string ulong_bits io_service fiber_demux
    (GetCreateRequest local_port).parameters (to_string local_port) binary_path binary_args
    (find_GetCreateRequest local_port) hdigits hpath, hden, if_pos hfits, Nat.mod_eq_of_lt hlt]

/-- Instance of C4 at a concrete input. -/
theorem C4_witness :
    32 ≤ 64 ∧ 4000 < 65536 ∧ "/bin/echo" ≠ "" ∧
    Create 64 () () (GetCreateRequest 4000).parameters "/bin/echo" "" =
      .ok (some ⟨(), (), 4000, "/bin/echo", ""⟩) :=
  ⟨by decide, by decide, by decide,
   C4_create_of_GetCreateRequest 64 () () 4000 "/bin/echo" ""
     (by decide) (by decide) (by decide)⟩

/-- C5: with a configuration whose `enabled()` is false,
`RegisterToServiceFactory` returns the factory as it was, whatever the
registration member does; hence every lookup on the factory, in particular
that of id 10, gives after the call what it gave before (a lookup that found
no handler still finds none). -/
theorem C5_disabled_leaves_factory_unchanged {IoService Demux Factory : Type}
    (ulong_bits : Nat)
    (RegisterServiceCreator : Factory → Nat → ServiceCreator IoService Demux → Factory)
    (p_factory : Factory) (config : Config)
    (hdisabled : config.enabled = false) :
    RegisterToServiceFactory ulong_bits RegisterServiceCreator p_factory config = p_factory ∧
    ∀ lookup : Factory → Nat → Option (ServiceCreator IoService Demux),
      lookup (RegisterToServiceFactory ulong_bits RegisterServiceCreator p_factory config) 10
        = lookup p_factory 10 := by
  have h : RegisterToServiceFactory ulong_bits RegisterServiceCreator p_factory config
      = p_factory := by
    simp [RegisterToServiceFactory, hdisabled]
  exact ⟨h, fun lookup => by rw [h]⟩

/-- Instance of C5 at a concrete input. -/
theorem C5_witness :
    (⟨false, "/bin/sh", ""⟩ : Config).enabled = false ∧
    (RegisterToServiceFactory 64 ServiceFactory.RegisterServiceCreator
        (⟨fun _ => none⟩ : ServiceFactory Unit Unit) ⟨false, "/bin/sh", ""⟩).lookup 10
      = none :=
  ⟨rfl,
   (C5_disabled_leaves_factory_unchanged 64 ServiceFactory.RegisterServiceCreator
      (⟨fun _ => none⟩ : ServiceFactory Unit Unit) ⟨false, "/bin/sh", ""⟩ rfl).2
      ServiceFactory.lookup⟩

/-- C6: with a configuration whose `enabled()` is true, after
`RegisterToServiceFactory` the factory maps id 10 to the creator that sends
`(io_service, demux, parameters)` to the result of `Server::Create` on them
with binary path `config.path()` and binary arguments `config.args()`, and
maps every other id to what it mapped it to before. -/
theorem C6_enabled_registers_creator {IoService Demux : Type} (ulong_bits : Nat)
    (p_factory : ServiceFactory IoService Demux) (config : Config)
    (henabled : config.enabled = true) (id : Nat) :
    (RegisterToServiceFactory ulong_bits ServiceFactory.RegisterServiceCreator
        p_factory config).lookup id =
      if id = 10 then
        some (fun io_service fiber_demux parameters =>
          Create ulong_bits io_service fiber_demux parameters config.path config.args)
      else p_factory.lookup id := by
  simp [RegisterToServiceFactory, henabled, ServiceFactory.RegisterServiceCreator,
    ServiceFactory.lookup, factory_id]

/-- Instance of C6 at a concrete input. -/
theorem C6_witness :
    (⟨true, "/bin/sh", "-i"⟩ : Config).enabled = true ∧
    (RegisterToServiceFactory 64 ServiceFactory.RegisterServiceCreator
        (⟨fun _ => none⟩ : ServiceFactory Unit Unit) ⟨true, "/bin/sh", "-i"⟩).lookup 10 =
      some (fun io_service fiber_demux parameters =>
        Create 64 io_service fiber_demux parameters "/bin/sh" "-i") :=
  ⟨rfl,
   C6_enabled_registers_creator 64 (⟨fun _ => none⟩ : ServiceFactory Unit Unit)
     ⟨true, "/bin/sh", "-i"⟩ rfl 10⟩

/-- C7: unknown extra keys are ignored. Extending the parameter map with an
entry whose key is not `"local_port"`, by `insert` or by assignment, does not
change the result of `Server::Create`; more generally two maps with the same
`"local_port"` entry give the same result for the same binary path and
arguments. -/
theorem C7_extra_keys_ignored {IoService Demux : Type} (ulong_bits : Nat)
    (io_service : IoService) (fiber_demux : Demux) (parameters : Parameters)
    (key value binary_path binary_args : String)
    (hkey : key ≠ "local_port") :
    Create ulong_bits io_service fiber_demux (parameters.insert key value)
        binary_path binary_args =
      Create ulong_bits io_service fiber_demux parameters binary_path binary_args ∧
    Create ulong_bits io_service fiber_demux (parameters.assign key value)
        binary_path binary_args =
      Create ulong_bits io_service fiber_demux parameters binary_path binary_args ∧
    ∀ other : Parameters,
      other.find "local_port" = parameters.find "local_port" →
      Create ulong_bits io_service fiber_demux other binary_path binary_args =
        Create ulong_bits io_service fiber_demux parameters binary_path binary_args := by
  refine ⟨?_, ?_, ?_⟩
  · rw [Create_eq_of_find, Create_eq_of_find, find_insert_ne parameters key value _ hkey]
  · rw [Create_eq_of_find, Create_eq_of_find, find_assign_ne parameters key value _ hkey]
  · intro other h
    rw [Create_eq_of_find, Create_eq_of_find, h]

/-- Instance of C7 at a concrete input. -/
theorem C7_witness :
    "verbose" ≠ "local_port" ∧
    Create 64 () () (Parameters.insert [("local_port", "4000")] "verbose" "1")
        "/bin/sh" "" =
      Create 64 () () [("local_port", "4000")] "/bin/sh" "" :=
  ⟨by decide,
   (C7_extra_keys_ignored 64 () () [("local_port", "4000")] "verbose" "1" "/bin/sh" ""
      (by decide)).1⟩

/-- C8: `Server::Create` never lets an exception escape. For all inputs it
returns normally, and the result is either the null pointer or the server
built from a conversion that succeeded; so whenever `std::stoul` throws, be
it `std::invalid_argument` or `std::out_of_range`, the result is the null
pointer. -/
theorem C8_create_no_exception {IoService Demux : Type} (ulong_bits : Nat)
    (io_service : IoService) (fiber_demux : Demux) (parameters : Parameters)
    (binary_path binary_args : String) :
    Create ulong_bits io_service fiber_demux parameters binary_path binary_args = .ok none ∨
    ∃ converted,
      stoul ulong_bits (parameters.index "local_port") = .ok converted ∧
      Create ulong_bits io_service fiber_demux parameters binary_path binary_args =
        .ok (some ⟨io_service, fiber_demux, converted % 2 ^ 32, binary_path, binary_args⟩) := by
  unfold Create
  split
  · exact Or.inl rfl
  · cases hs : stoul ulong_bits (parameters.index "local_port") with
    | error e => cases e <;> exact Or.inl rfl
    | ok converted => exact Or.inr ⟨converted, rfl, rfl⟩

/-- C9: for every port `p` (in particular every 16-bit one),
`GetCreateRequest(p)` carries the service id `factory_id = 10`, the id under
which `RegisterToServiceFactory` registers the creator, and its parameter
set has exactly one entry, with key `"local_port"` and as value the decimal
representation of `p`: a non-empty string of digits that denotes `p`. -/
theorem C9_GetCreateRequest (IoService Demux : Type) (local_port : Nat) :
    (GetCreateRequest local_port).service_id = factory_id ∧
    factory_id = 10 ∧
    (GetCreateRequest local_port).parameters = [("local_port", to_string local_port)] ∧
    is_digit_string (to_string local_port) = true ∧
    decimal_value (to_string local_port).data = local_port ∧
    ∀ (ulong_bits : Nat) (p_factory : ServiceFactory IoService Demux) (path args : String),
      (RegisterToServiceFactory ulong_bits ServiceFactory.RegisterServiceCreator p_factory
          ⟨true, path, args⟩).lookup (GetCreateRequest local_port).service_id =
        some (fun io_service fiber_demux parameters =>
          Create ulong_bits io_service fiber_demux parameters path args) := by
  obtain ⟨hdigits, hden⟩ := to_string_spec local_port
  refine ⟨rfl, rfl, rfl, hdigits, hden, ?_⟩
  intro ulong_bits p_factory path args
  simp [RegisterToServiceFactory, ServiceFactory.RegisterServiceCreator,
    ServiceFactory.lookup, GetCreateRequest, CreateServiceRequest.build,
    CreateServiceRequest.add_parameter]

/-- C10: oversized ports are wrapped rather than rejected. With an
`unsigned long` of 64 bits, a `"local_port"` value that is a non-empty string
of decimal digits denoting `n`, and a non-empty binary path, `Server::Create`
returns a server on virtual port `n mod 2^32` whenever `n < 2^64` (so for
`2^32 ≤ n < 2^64` the port is the wrapped value), and returns the null
pointer exactly when `n ≥ 2^64`. -/
theorem C10_oversized_port_wraps {IoService Demux : Type}
    (io_service : IoService) (fiber_demux : Demux) (parameters : Parameters)
    (value binary_path binary_args : String)
    (hvalue : parameters.find "local_port" = some value)
    (hdigits : is_digit_string value = true)
    (hpath : binary_path ≠ "") :
    Create 64 io_service fiber_demux parameters binary_path binary_args =
      if decimal_value value.data < 2 ^ 64 then
        .ok (some ⟨io_service, fiber_demux, decimal_value value.data % 2 ^ 32,
          binary_path, binary_args⟩)
      else .ok none :=
  Create_of_digit_string 64 io_service fiber_demux parameters value binary_path binary_args
    hvalue hdigits hpath

/-- Instance of C10 at a concrete input. -/
theorem C10_witness :
    Parameters.find [("local_port", "4294971296")] "local_port" = some "4294971296" ∧
    is_digit_string "4294971296" = true ∧
    "/bin/sh" ≠ "" ∧
    decimal_value "4294971296".data = 2 ^ 32 + 4000 ∧
    Create 64 () () [("local_port", "4294971296")] "/bin/sh" "" =
      .ok (some ⟨(), (), 4000, "/bin/sh", ""⟩) :=
  ⟨by decide, by decide, by decide, by decide,
   (C10_oversized_port_wraps () () [("local_port", "4294971296")] "4294971296" "/bin/sh" ""
      (by decide) (by decide) (by decide)).trans (by rfl)⟩

end ssf
